import Mathlib

/-!
Verification of the Classificador classification and financial-aggregation
engine.  The definitions below are a shallow embedding of
src/layers/business_layer.py, src/layers/financial_analysis.py and
src/utils/ai_decision_logger.py: pandas DataFrames become lists of rows,
monetary values become rationals, the external AI call becomes an oracle
returning either a raw (category, explanation) pair or an error, and the
pydantic structured-output validation becomes an explicit membership check
against the closed category set.
-/

/-- Boolean substring containment on character lists: does `pat` occur as a
contiguous sublist of `s`?  Models the Python `pat in s` operator. -/
def containsSubAux (pat : List Char) : List Char → Bool
  | [] => List.isPrefixOf pat []
  | c :: cs => List.isPrefixOf pat (c :: cs) || containsSubAux pat cs

/-- Boolean substring containment on strings, modelling Python `pat in s`. -/
def containsSub (s pat : String) : Bool := containsSubAux pat.data s.data

/-- Character upper-casing as performed by Python `str.upper` restricted to the
alphabet actually occurring in the rule keywords: ASCII letters plus the
accented Latin vowels and cedilla used in the Portuguese descriptions. -/
def pyUpperChar (c : Char) : Char :=
  if c.isLower then c.toUpper
  else if c = 'á' then 'Á'
  else if c = 'à' then 'À'
  else if c = 'â' then 'Â'
  else if c = 'ã' then 'Ã'
  else if c = 'é' then 'É'
  else if c = 'ê' then 'Ê'
  else if c = 'í' then 'Í'
  else if c = 'ó' then 'Ó'
  else if c = 'ô' then 'Ô'
  else if c = 'õ' then 'Õ'
  else if c = 'ú' then 'Ú'
  else if c = 'ç' then 'Ç'
  else c

/-- String upper-casing, modelling Python `str.upper` on the descriptions. -/
def pyUpper (s : String) : String := String.mk (s.data.map pyUpperChar)

/-- One bank transaction row of the pandas DataFrame flowing through the
pipeline: ingestion assigns `index`; `data` is a dd/mm/yyyy date string;
`origem` is "CAR" (credit) or "CAP" (debit); `valor` is the signed amount;
the two classification columns are null until classification fills them. -/
structure Row where
  index : Int
  data : String
  descricao : String
  origem : String
  valor : Rat
  classificacao_sugerida : Option String
  explicacao : Option String
deriving Repr, DecidableEq

/-- Result of classifying one transaction: the category and the explanation,
as produced by a rule, by the AI, or by the error fallback. -/
structure ClassResult where
  classificacao_sugerida : String
  explicacao : String
deriving Repr, DecidableEq

/-- One entry appended to the AI decision logger by
log_classification_decision. -/
structure LogRecord where
  transaction_id : Int
  input_descricao : String
  decision_class : String
  decision_expl : String
  method : String
  reasoning : String
  confidence : Option Rat
deriving Repr, DecidableEq

/-- Predicate of the own-account-transfer rule (BODY STATION / J E MADEIRA),
over the upper-cased description. -/
def condTransf (desc : String) : Bool :=
  containsSub desc "BODY STATION ACADEMIA" || containsSub desc "J E MADEIRA A"

/-- Predicate of the Rende Fácil rule over the upper-cased description. -/
def condRende (desc : String) : Bool :=
  containsSub desc "RENDE FACIL" || containsSub desc "RENDE FÁCIL"

/-- Predicate of the generic PIX/TED transfer rule. -/
def condPixTed (desc : String) : Bool :=
  containsSub desc "PIX" || containsSub desc "TED"

/-- Predicate of the card-receipts rule. -/
def condCartao (desc : String) : Bool :=
  containsSub desc "REDE" || containsSub desc "CARTAO" || containsSub desc "CARTÃO"

/-- Predicate of the Gympass rule. -/
def condGympass (desc : String) : Bool := containsSub desc "GYMPASS"

/-- Predicate of the insurance rule. -/
def condSeguro (desc : String) : Bool := containsSub desc "SEGURO"

/-- Predicate of the consortium rule. -/
def condConsorcio (desc : String) : Bool :=
  containsSub desc "CONSORCIO" || containsSub desc "CONSÓRCIO"

/-- Predicate of the generic investment rule. -/
def condInvest (desc : String) : Bool :=
  containsSub desc "OUROCAP" || containsSub desc "INVEST"

/-- Disjunction of all eight rule predicates of regras_pre_classificacao. -/
def anyRuleMatches (desc : String) : Bool :=
  condTransf desc || condRende desc || condPixTed desc || condCartao desc ||
  condGympass desc || condSeguro desc || condConsorcio desc || condInvest desc

/-- Disjunction of the two rule families that call the decision logger inside
regras_pre_classificacao (the remaining six return without logging). -/
def specialRule (desc : String) : Bool := condTransf desc || condRende desc

/-- Embedding of BusinessLayer.regras_pre_classificacao: the ordered rule
table, evaluated top to bottom on the upper-cased description, returning the
rule result (or none) together with the list of decision-log entries the call
appends.  Only the first two rule families log; the generic rules return
without logging, and the no-match path appends nothing. -/
def regras_pre_classificacao (row : Row) (log_decision : Bool) :
    Option ClassResult × List LogRecord :=
  let desc := pyUpper row.descricao
  if condTransf desc then
    if row.origem = "CAR" then
      let result : ClassResult :=
        ⟨"(+) Transferencia Entre Contas",
          "Transferência entre contas próprias identificada (entrada)"⟩
      (some result,
        if log_decision then
          [⟨row.index, row.descricao, result.classificacao_sugerida,
            result.explicacao, "rule",
            "Regra: Transferência entre contas próprias (BODY STATION/J E MADEIRA) - Entrada (CAR)",
            some 1⟩]
        else [])
    else
      let result : ClassResult :=
        ⟨"(-) Transferencia Entre Contas",
          "Transferência entre contas próprias identificada (saída)"⟩
      (some result,
        if log_decision then
          [⟨row.index, row.descricao, result.classificacao_sugerida,
            result.explicacao, "rule",
            "Regra: Transferência entre contas próprias (BODY STATION/J E MADEIRA) - Saída (CAP)",
            some 1⟩]
        else [])
  else if condRende desc then
    if row.origem = "CAR" then
      let result : ClassResult :=
        ⟨"Resgate Aplicação Financeira", "Resgate de aplicação financeira identificado"⟩
      (some result,
        if log_decision then
          [⟨row.index, row.descricao, result.classificacao_sugerida,
            result.explicacao, "rule",
            "Regra: Rende Fácil detectado + origem CAR = Resgate", some 1⟩]
        else [])
    else
      let result : ClassResult :=
        ⟨"0.006 - Aplicação Financeira", "Aplicação financeira identificada"⟩
      (some result,
        if log_decision then
          [⟨row.index, row.descricao, result.classificacao_sugerida,
            result.explicacao, "rule",
            "Regra: Rende Fácil detectado + origem CAP = Aplicação", some 1⟩]
        else [])
  else if condPixTed desc then
    if row.origem = "CAP" then
      (some ⟨"Saída de Transferência", "Transferência genérica identificada (saída)"⟩, [])
    else
      (some ⟨"Entrada de Transferência", "Transferência genérica identificada (entrada)"⟩, [])
  else if condCartao desc then
    (some ⟨"Receita com Venda de Serviços", "Recebimento via cartão/maquininha"⟩, [])
  else if condGympass desc then
    (some ⟨"Gympass", "Receita Gympass identificada"⟩, [])
  else if condSeguro desc then
    (some ⟨"Seguros", "Seguro identificado na descrição"⟩, [])
  else if condConsorcio desc then
    (some ⟨"Consórcios", "Consórcio identificado na descrição"⟩, [])
  else if condInvest desc then
    (some ⟨"Investimento", "Investimento identificado na descrição"⟩, [])
  else
    (none, [])

/-- Outcome of one call to the external classification capability, before
structured-output validation: either a raw (category, explanation) pair or a
transport/parse failure carrying its message. -/
inductive AIOutcome where
  | ok (classificacao : String) (explicacao : String)
  | err (msg : String)
deriving Repr, DecidableEq

/-- Embedding of the pydantic structured-output layer around the chain call:
a transport failure propagates as an error, and a response whose category
lies outside the closed allowed set raises a validation error instead of
being accepted. -/
def validateStructured (classes : List String) (o : AIOutcome) :
    Except String ClassResult :=
  match o with
  | .err m => .error m
  | .ok c e => if c ∈ classes then .ok ⟨c, e⟩ else .error ("validation error for value " ++ c)

/-- Embedding of BusinessLayer.classificar_transacao for one row: rules first
(with logging enabled), then the AI call guarded by try/except; on any
exception the sentinel category is returned and an error decision is logged.
The second component is the list of decision-log entries appended. -/
def classificar_transacao (classes : List String) (oracle : Row → AIOutcome)
    (row : Row) : ClassResult × List LogRecord :=
  match regras_pre_classificacao row true with
  | (some r, logs) => (r, logs)
  | (none, _) =>
    match validateStructured classes (oracle row) with
    | .ok d =>
      (d, [⟨row.index, row.descricao, d.classificacao_sugerida, d.explicacao,
            "ai", "IA analisou a descrição e classificou a transação", none⟩])
    | .error e =>
      let r : ClassResult := ⟨"Nao classificado", "Erro na classificação: " ++ e⟩
      (r, [⟨row.index, row.descricao, r.classificacao_sugerida, r.explicacao,
            "error", "Erro ao classificar: " ++ e, some 0⟩])

/-- Fixed-size chunking with an explicit fuel argument (the fuel is the list
length at the top-level call, which is always enough for chunk size at least
one).  Models the Python loop `for start in range(0, len(tasks), 50)` with
slicing `tasks[start:start + 50]`. -/
def chunksOfAux (n : Nat) : Nat → List α → List (List α)
  | 0, _ => []
  | _ + 1, [] => []
  | fuel + 1, x :: xs => (x :: xs).take n :: chunksOfAux n fuel ((x :: xs).drop n)

/-- Splits a list into consecutive chunks of size `n` (last chunk shorter). -/
def chunksOf (n : Nat) (l : List α) : List (List α) := chunksOfAux n l.length l

/-- Merging classification results back into the DataFrame: rows whose
classification column was already set are kept; each still-unclassified row
consumes the next result in submission order, modelling the
`for idx, res in zip(indices, resultados)` loc-update of
classificar_transacoes_df. -/
def mergeBack : List Row → List ClassResult → List Row
  | [], _ => []
  | r :: rs, res =>
    match r.classificacao_sugerida with
    | some _ => r :: mergeBack rs res
    | none =>
      match res with
      | [] => r :: mergeBack rs []
      | c :: cs =>
        { r with classificacao_sugerida := some c.classificacao_sugerida,
                 explicacao := some c.explicacao } :: mergeBack rs cs

/-- Rows of the DataFrame whose classification column is still null, in
order; these are the indices selected by the isna mask. -/
def pendingRows (df : List Row) : List Row :=
  df.filter (fun r => r.classificacao_sugerida.isNone)

/-- Embedding of BusinessLayer.classificar_transacoes_df: copies the frame,
selects the unclassified rows, dispatches them in chunks of 50 (the semaphore
inside _gather_limit bounds concurrency but leaves the value and order of the
results unchanged; asyncio.gather returns results in submission order), and
writes each result back onto its row.  Returns the classified frame and the
decision-log entries appended, in task order. -/
def classificar_transacoes_df (classes : List String) (oracle : Row → AIOutcome)
    (df : List Row) : List Row × List LogRecord :=
  let resultados :=
    ((chunksOf 50 (pendingRows df)).map
      (fun ch => ch.map (classificar_transacao classes oracle))).flatten
  (mergeBack df (resultados.map (fun p => p.1)),
   (resultados.map (fun p => p.2)).flatten)

/-- Abstract state of the chunked dispatcher of classificar_transacoes_df
with the semaphore of _gather_limit: counts of tasks of the current chunk
that have not yet acquired the semaphore (`pendingT`), that currently hold it
(`holdingT`, i.e. have an outstanding external call), the free permits of the
chunk's semaphore (`avail`), and the sizes of the chunks not yet started.
Task identity is irrelevant to the concurrency bound, so tasks are counted
rather than named. -/
structure DispatchState where
  limit : Nat
  pendingT : Nat
  holdingT : Nat
  avail : Nat
  restChunks : List Nat
deriving Repr, DecidableEq

/-- Small-step transitions of the dispatcher: a pending task may acquire a
free permit of the chunk's semaphore and start its external call; a task
holding a permit may finish and release it; when the whole chunk is done
(the per-chunk await of gather), the next chunk starts with a fresh semaphore
of `limit` permits, exactly as _gather_limit constructs a new
asyncio.Semaphore per call. -/
inductive DispatchStep : DispatchState → DispatchState → Prop where
  | acquire (s : DispatchState) (hp : 0 < s.pendingT) (ha : 0 < s.avail) :
      DispatchStep s ⟨s.limit, s.pendingT - 1, s.holdingT + 1, s.avail - 1, s.restChunks⟩
  | release (s : DispatchState) (hh : 0 < s.holdingT) :
      DispatchStep s ⟨s.limit, s.pendingT, s.holdingT - 1, s.avail + 1, s.restChunks⟩
  | nextChunk (s : DispatchState) (n : Nat) (rest : List Nat)
      (hp : s.pendingT = 0) (hh : s.holdingT = 0) (hr : s.restChunks = n :: rest) :
      DispatchStep s ⟨s.limit, n, 0, s.limit, rest⟩

/-- Initial dispatcher state for a batch: no chunk started yet, and the chunk
sizes are those of the fixed 50-item slicing of the task list. -/
def initDispatch (limit : Nat) (batch : List α) : DispatchState :=
  ⟨limit, 0, 0, limit, (chunksOf 50 batch).map List.length⟩

/-- Reachability by zero or more dispatcher steps. -/
inductive DispatchReach (s0 : DispatchState) : DispatchState → Prop where
  | refl : DispatchReach s0 s0
  | tail {s t : DispatchState} : DispatchReach s0 s → DispatchStep s t →
      DispatchReach s0 t

/-- Semaphore invariant: the free permits plus the permits held by in-flight
tasks always add up to the semaphore's initial value, and the configured
limit never changes. -/
theorem dispatch_invariant (limit : Nat) (batch : List Row) (s : DispatchState)
    (h : DispatchReach (initDispatch limit batch) s) :
    s.holdingT + s.avail = limit ∧ s.limit = limit := by
  induction h with
  | refl => exact ⟨by simp [initDispatch], rfl⟩
  | tail _ hstep ih =>
    cases hstep with
    | acquire hp ha => exact ⟨by simp; omega, ih.2⟩
    | release hh => exact ⟨by simp; omega, ih.2⟩
    | nextChunk n rest hp hh hr => exact ⟨by simp [ih.2], ih.2⟩

/-- Deduplication keeping the first occurrence, with an accumulator of values
already seen; models the order-preserving pandas Series.unique. -/
def dedupAux [DecidableEq α] (seen : List α) : List α → List α
  | [] => []
  | a :: as => if a ∈ seen then dedupAux seen as else a :: dedupAux (a :: seen) as

/-- Deduplication keeping the first occurrence of each value. -/
def dedupFirst [DecidableEq α] (l : List α) : List α := dedupAux [] l

/-- Insertion of an element into a list sorted by the boolean comparison
`leb`; the element goes before the first position where it compares
less-or-equal, which keeps insertion stable. -/
def insertSorted (leb : α → α → Bool) (a : α) : List α → List α
  | [] => [a]
  | b :: bs => if leb a b then a :: b :: bs else b :: insertSorted leb a bs

/-- Insertion sort by the boolean comparison `leb`; models Python sorted and
the ascending key ordering of pandas groupby. -/
def sortByLeb (leb : α → α → Bool) : List α → List α
  | [] => []
  | a :: as => insertSorted leb a (sortByLeb leb as)

/-- Lexicographic less-or-equal on character lists, modelling Python string
comparison by code point. -/
def charListLeb : List Char → List Char → Bool
  | [], _ => true
  | _ :: _, [] => false
  | a :: as, b :: bs => if a < b then true else if b < a then false else charListLeb as bs

/-- Lexicographic less-or-equal on strings, modelling Python string order. -/
def strLeb (a b : String) : Bool := charListLeb a.data b.data

/-- Calendar date as parsed from a dd/mm/yyyy string. -/
structure DateDMY where
  year : Nat
  month : Nat
  day : Nat
deriving Repr, DecidableEq

/-- Number of days of a month, with the Gregorian leap rule; used to decide
which date strings pandas to_datetime(format dd/mm/yyyy, errors coerce)
accepts as real calendar dates. -/
def daysInMonth (y m : Nat) : Nat :=
  if m = 2 then (if (y % 4 = 0 && y % 100 ≠ 0) || y % 400 = 0 then 29 else 28)
  else if m = 4 ∨ m = 6 ∨ m = 9 ∨ m = 11 then 30 else 31

/-- Splitting of a character list on a separator character, accumulator
style; models the field splitting of the date format. -/
def splitOnCharAux (sep : Char) : List Char → List Char → List (List Char)
  | [], acc => [acc.reverse]
  | c :: cs, acc =>
    if c = sep then acc.reverse :: splitOnCharAux sep cs []
    else splitOnCharAux sep cs (c :: acc)

/-- Decimal reading of a nonempty all-digit character list. -/
def digitsToNat (cs : List Char) : Option Nat :=
  if cs.isEmpty then none
  else if cs.all Char.isDigit then
    some (cs.foldl (fun n c => n * 10 + (c.toNat - 48)) 0)
  else none

/-- Parsing of a dd/mm/yyyy date string (three numeric slash-separated
fields naming a real calendar day); returns none exactly when pandas
to_datetime with that format and errors coerce would produce NaT. -/
def parseDateDMY (s : String) : Option DateDMY :=
  match splitOnCharAux '/' s.data [] with
  | [ds, ms, ys] =>
    match digitsToNat ds, digitsToNat ms, digitsToNat ys with
    | some d, some m, some y =>
      if 1 ≤ m ∧ m ≤ 12 ∧ 1 ≤ d ∧ d ≤ daysInMonth y m then some ⟨y, m, d⟩ else none
    | _, _, _ => none
  | _ => none

/-- Two-digit zero-padding of a month number. -/
def pad2 (m : Nat) : String := if m < 10 then "0" ++ toString m else toString m

/-- Four-digit zero-padding of a year number, as str of a pandas Period. -/
def pad4 (y : Nat) : String :=
  if y < 10 then "000" ++ toString y
  else if y < 100 then "00" ++ toString y
  else if y < 1000 then "0" ++ toString y
  else toString y

/-- Month key in the YYYY-MM form produced by str of a monthly pandas
Period. -/
def fmtMonth (y m : Nat) : String := pad4 y ++ "-" ++ pad2 m

/-- Month key (year, month) of a row's date, when the date parses. -/
def rowMonth (t : Row) : Option (Nat × Nat) :=
  (parseDateDMY t.data).map (fun d => (d.year, d.month))

/-- Month-key string column mes_ano as built by compare_months and
get_all_month_comparisons: to_period(M) then astype(str), which renders an
unparseable date (NaT) as the literal string NaT. -/
def mesAnoStr (t : Row) : String :=
  match parseDateDMY t.data with
  | some d => fmtMonth d.year d.month
  | none => "NaT"

/-- Rows of the frame falling in the given month-key string. -/
def monthRows (df : List Row) (m : String) : List Row :=
  df.filter (fun t => mesAnoStr t = m)

/-- Sum of the strictly positive values of a list of amounts, modelling
x[x greater than 0].sum(). -/
def posSum (vs : List Rat) : Rat := (vs.filter (fun v => decide (0 < v))).sum

/-- Sum of the strictly negative values of a list of amounts. -/
def negSum (vs : List Rat) : Rat := (vs.filter (fun v => decide (v < 0))).sum

/-- Absolute value of the sum of the strictly negative values, modelling
abs(x[x less than 0].sum()). -/
def negAbs (vs : List Rat) : Rat := |negSum vs|

/-- Monthly revenue of a frame restricted to a month key. -/
def receitaOfMonth (df : List Row) (m : String) : Rat :=
  posSum ((monthRows df m).map (fun t => t.valor))

/-- Monthly expense (absolute) of a frame restricted to a month key. -/
def despesaOfMonth (df : List Row) (m : String) : Rat :=
  negAbs ((monthRows df m).map (fun t => t.valor))

/-- Total-order comparison on (year, month) keys: chronological order, which
is the order of pandas Periods. -/
def monthLeb (p q : Nat × Nat) : Bool :=
  decide (p.1 < q.1) || (decide (p.1 = q.1) && decide (p.2 ≤ q.2))

/-- Distinct month keys of the parseable dates of a frame, sorted
chronologically: the group keys of the monthly groupby after dropna. -/
def monthKeysOf (df : List Row) : List (Nat × Nat) :=
  sortByLeb monthLeb (dedupFirst (df.filterMap rowMonth))

/-- Signed amounts of the rows of a frame whose date parses into the given
month key. -/
def monthValores (df : List Row) (k : Nat × Nat) : List Rat :=
  (df.filter (fun t => rowMonth t = some k)).map (fun t => t.valor)

/-- One point of the monthly trend series. -/
structure MonthlyPoint where
  mes : String
  receita : Rat
  despesa : Rat
  saldo : Rat
deriving Repr, DecidableEq

/-- Embedding of FinancialAnalyzer.analyze_monthly_trend: parse the dates,
drop unparseable rows, group by calendar month, and per month aggregate the
positive sum, the absolute negative sum and the total sum (the source lambda
computes the triple (x[x gt 0].sum(), abs(x[x lt 0].sum()), x.sum())). -/
def analyze_monthly_trend (df : List Row) : List MonthlyPoint :=
  (monthKeysOf df).map (fun k =>
    let vs := monthValores df k
    ⟨fmtMonth k.1 k.2, posSum vs, negAbs vs, vs.sum⟩)

/-- Snapshot of one month inside a period comparison. -/
structure PeriodSnap where
  mes : String
  receita : Rat
  despesa : Rat
  saldo : Rat
  num_transacoes : Nat
deriving Repr, DecidableEq

/-- Signed and percentage deltas of a period comparison. -/
structure Variations where
  receita_pct : Rat
  receita_abs : Rat
  despesa_pct : Rat
  despesa_abs : Rat
  saldo_pct : Rat
  saldo_abs : Rat
deriving Repr, DecidableEq

/-- Result structure of compare_months. -/
structure Comparison where
  period_a : PeriodSnap
  period_b : PeriodSnap
  variations : Variations
deriving Repr, DecidableEq

/-- Embedding of FinancialAnalyzer.compare_months: filter the frame to the
two month keys; if either side is empty return None; otherwise build the two
snapshots and the division-guarded percentage variations. -/
def compare_months (df : List Row) (month_a month_b : String) : Option Comparison :=
  let dfa := monthRows df month_a
  let dfb := monthRows df month_b
  if dfa.length = 0 ∨ dfb.length = 0 then none
  else
    let receita_a := receitaOfMonth df month_a
    let receita_b := receitaOfMonth df month_b
    let despesa_a := despesaOfMonth df month_a
    let despesa_b := despesaOfMonth df month_b
    let saldo_a := receita_a - despesa_a
    let saldo_b := receita_b - despesa_b
    let var_receita := if 0 < receita_a then (receita_b - receita_a) / receita_a * 100 else 0
    let var_despesa := if 0 < despesa_a then (despesa_b - despesa_a) / despesa_a * 100 else 0
    let var_saldo := if saldo_a ≠ 0 then (saldo_b - saldo_a) / |saldo_a| * 100 else 0
    some
      { period_a := ⟨month_a, receita_a, despesa_a, saldo_a, dfa.length⟩
        period_b := ⟨month_b, receita_b, despesa_b, saldo_b, dfb.length⟩
        variations :=
          ⟨var_receita, receita_b - receita_a, var_despesa, despesa_b - despesa_a,
           var_saldo, saldo_b - saldo_a⟩ }

/-- Sorted distinct month-key strings of a frame, NaT string included for
unparseable dates: sorted(df[mes_ano].unique()). -/
def mesesOf (df : List Row) : List String :=
  sortByLeb strLeb (dedupFirst (df.map mesAnoStr))

/-- Loop body of get_all_month_comparisons over the sorted distinct months:
compare each adjacent pair and append only the comparisons that are not
None. -/
def getAllAux (df : List Row) : List String → List Comparison
  | a :: b :: rest =>
    (match compare_months df a b with
     | some c => c :: getAllAux df (b :: rest)
     | none => getAllAux df (b :: rest))
  | _ => []

/-- Embedding of FinancialAnalyzer.get_all_month_comparisons. -/
def get_all_month_comparisons (df : List Row) : List Comparison :=
  getAllAux df (mesesOf df)

/-- Adjacent pairs of a list, modelling the index loop over meses. -/
def adjPairs : List α → List (α × α)
  | a :: b :: rest => (a, b) :: adjPairs (b :: rest)
  | _ => []

/-- Minimum of a list of strings under Python lexicographic order, with a
default for the empty list only; models min on a string column. -/
def minStr (dflt : String) (l : List String) : String :=
  match l with
  | [] => dflt
  | x :: xs => xs.foldl (fun acc s => if strLeb s acc then s else acc) x

/-- Maximum of a list of strings under Python lexicographic order, with a
default for the empty list only. -/
def maxStr (dflt : String) (l : List String) : String :=
  match l with
  | [] => dflt
  | x :: xs => xs.foldl (fun acc s => if strLeb acc s then s else acc) x

/-- Chronological less-or-equal on full dates. -/
def dateLeb (p q : DateDMY) : Bool :=
  decide (p.year < q.year) ||
  (decide (p.year = q.year) &&
    (decide (p.month < q.month) ||
      (decide (p.month = q.month) && decide (p.day ≤ q.day))))

/-- Minimum parsed date of a frame, skipping unparseable rows the way the
pandas min skips NaT; none when no date parses. -/
def minDateOf (df : List Row) : Option DateDMY :=
  (df.filterMap (fun t => parseDateDMY t.data)).foldl
    (fun acc d => match acc with
      | none => some d
      | some a => if dateLeb d a then some d else some a) none

/-- Maximum parsed date of a frame, skipping unparseable rows. -/
def maxDateOf (df : List Row) : Option DateDMY :=
  (df.filterMap (fun t => parseDateDMY t.data)).foldl
    (fun acc d => match acc with
      | none => some d
      | some a => if dateLeb a d then some d else some a) none

/-- One line of the top-revenue / top-expense lists of the executive
summary. -/
structure TopItem where
  data : String
  descricao : String
  valor : Rat
  categoria : Option String
deriving Repr, DecidableEq

/-- Case-insensitive substring test on a nullable pandas string column using
na equals False: a null value never matches.  Models
Series.str.contains(pat, case False, na False) for the literal patterns
used by generate_summary. -/
def optContains (v : Option String) (pat : String) : Bool :=
  match v with
  | none => false
  | some s => containsSub (pyUpper s) (pyUpper pat)

/-- Stable descending sort by value followed by take 5, modelling
DataFrame.nlargest(5, valor) with its keep-first tie policy. -/
def top5Largest (l : List Row) : List Row :=
  (sortByLeb (fun a b => decide (b.valor < a.valor)) l).take 5

/-- Stable ascending sort by value followed by take 5, modelling
DataFrame.nsmallest(5, valor). -/
def top5Smallest (l : List Row) : List Row :=
  (sortByLeb (fun a b => decide (a.valor < b.valor)) l).take 5

/-- Truncation of a description to its first 50 characters, as the slicing
descricao[:50]. -/
def take50 (s : String) : String := String.mk (s.data.take 50)

/-- Period block of the executive summary. -/
structure PeriodoInfo where
  inicio : String
  fim : String
  mes_inicio : String
  mes_fim : String
deriving Repr, DecidableEq

/-- Totals block of the executive summary. -/
structure TotaisInfo where
  receita : Rat
  despesa : Rat
  saldo : Rat
  margem : Rat
deriving Repr, DecidableEq

/-- Transaction-count block of the executive summary. -/
structure TransacoesInfo where
  total : Nat
  receitas : Nat
  despesas : Nat
  ticket_medio_receita : Rat
  ticket_medio_despesa : Rat
deriving Repr, DecidableEq

/-- Executive summary structure returned by generate_summary. -/
structure Summary where
  periodo : PeriodoInfo
  totais : TotaisInfo
  transacoes : TransacoesInfo
  top_receitas : List TopItem
  top_despesas : List TopItem
deriving Repr, DecidableEq

/-- Total revenue of a frame: sum of the strictly positive amounts. -/
def receitaTotal (df : List Row) : Rat := posSum (df.map (fun t => t.valor))

/-- Total expense of a frame: absolute sum of the strictly negative
amounts. -/
def despesaTotal (df : List Row) : Rat := negAbs (df.map (fun t => t.valor))

/-- Body of FinancialAnalyzer.generate_summary on a frame already known to
be non-empty: real period bounds, division-guarded totals and per-side
averages, and the two top-5 lists with the opening-balance and
inter-account-transfer exclusion filters. -/
def summaryCore (df : List Row) : Summary :=
  let receitas := receitaTotal df
  let despesas := despesaTotal df
  let saldo := receitas - despesas
  let posRows := df.filter (fun t => decide (0 < t.valor))
  let negRows := df.filter (fun t => decide (t.valor < 0))
  let df_receitas := posRows.filter (fun t =>
    !(optContains t.classificacao_sugerida "Saldo Inicial") &&
    !(optContains t.classificacao_sugerida "Transferencia Entre Contas") &&
    !(optContains (some t.descricao) "SALDO"))
  let df_despesas := negRows.filter (fun t =>
    !(optContains t.classificacao_sugerida "Transferencia Entre Contas"))
  { periodo :=
      { inicio := minStr "" (df.map (fun t => t.data))
        fim := maxStr "" (df.map (fun t => t.data))
        mes_inicio :=
          match minDateOf df with
          | some d => fmtMonth d.year d.month
          | none => "N/A"
        mes_fim :=
          match maxDateOf df with
          | some d => fmtMonth d.year d.month
          | none => "N/A" }
    totais :=
      { receita := receitas
        despesa := despesas
        saldo := saldo
        margem := if 0 < receitas then saldo / receitas * 100 else 0 }
    transacoes :=
      { total := df.length
        receitas := posRows.length
        despesas := negRows.length
        ticket_medio_receita :=
          if 0 < posRows.length then
            (posRows.map (fun t => t.valor)).sum / (posRows.length : Rat)
          else 0
        ticket_medio_despesa :=
          if 0 < negRows.length then
            |(negRows.map (fun t => t.valor)).sum / (negRows.length : Rat)|
          else 0 }
    top_receitas := (top5Largest df_receitas).map (fun t =>
      ⟨t.data, take50 t.descricao, t.valor, t.classificacao_sugerida⟩)
    top_despesas := (top5Smallest df_despesas).map (fun t =>
      ⟨t.data, take50 t.descricao, t.valor, t.classificacao_sugerida⟩) }

/-- Embedding of FinancialAnalyzer.generate_summary: raises on an empty
frame, otherwise returns the summary of the real data. -/
def generate_summary (df : List Row) : Except String Summary :=
  if df.isEmpty then
    .error "DataFrame vazio! Não é possível gerar sumário sem dados reais dos arquivos OFX."
  else .ok (summaryCore df)

/-- One row of the static chart-of-accounts table (plano_de_contas), with the
income-statement and cash-flow taxonomy labels; the code column is cast to
string on load. -/
structure PlanoConta where
  conta_cod : String
  dre_n1 : Option String
  dre_n2 : Option String
  dfc_n1 : Option String
  dfc_n2 : Option String
deriving Repr, DecidableEq

/-- Embedding of FinancialAnalyzer.extract_code: null stays null; a value
containing the separator is split on its first occurrence and the first part
is stripped; otherwise the value passes through unchanged. -/
def extract_code (classificacao : Option String) : Option String :=
  match classificacao with
  | none => none
  | some c =>
    if containsSub c " - " then some (((c.splitOn " - ").headD c).trim) else some c

/-- Transaction row enriched with the chart-of-accounts columns attached by
the left merge of enrich_with_plan; unmatched rows carry nulls. -/
structure EnrichedRow where
  base : Row
  codigo_conta : Option String
  dre_n1 : Option String
  dre_n2 : Option String
  dfc_n1 : Option String
  dfc_n2 : Option String
deriving Repr, DecidableEq

/-- Embedding of FinancialAnalyzer.enrich_with_plan: extract the category
code of each row and left-merge with the chart of accounts on that code
(codes are unique keys of the plan table, so the left merge attaches at most
one plan row; a null code matches nothing). -/
def enrich_with_plan (plano : List PlanoConta) (df : List Row) : List EnrichedRow :=
  df.map (fun t =>
    let codigo := extract_code t.classificacao_sugerida
    match codigo.bind (fun c => plano.find? (fun p => p.conta_cod = c)) with
    | some p => ⟨t, codigo, p.dre_n1, p.dre_n2, p.dfc_n1, p.dfc_n2⟩
    | none => ⟨t, codigo, none, none, none, none⟩)

/-- Lexicographic less-or-equal on string pairs, the ascending key order of a
two-column pandas groupby. -/
def pairLeb (p q : String × String) : Bool :=
  if p.1 = q.1 then strLeb p.2 q.2
  else strLeb p.1 q.1

/-- Group keys and sums of a two-column groupby over enriched rows: `keyOf`
extracts the (level1, level2) pair of a row when both labels are present
(pandas drops groups with a null key), and each key is paired with the sum of
valor over its rows, keys sorted ascending. -/
def groupSums (keyOf : EnrichedRow → Option (String × String))
    (df : List EnrichedRow) : List (String × String × Rat) :=
  (sortByLeb pairLeb (dedupFirst (df.filterMap keyOf))).map (fun k =>
    (k.1, k.2, ((df.filter (fun r => keyOf r = some k)).map (fun r => r.base.valor)).sum))

/-- DRE keys of an enriched row: present only when dre_n1 is set (the notna
filter) and dre_n2 is set (groupby drops null keys). -/
def dreKey (r : EnrichedRow) : Option (String × String) :=
  match r.dre_n1, r.dre_n2 with
  | some a, some b => some (a, b)
  | _, _ => none

/-- DFC keys of an enriched row. -/
def dfcKey (r : EnrichedRow) : Option (String × String) :=
  match r.dfc_n1, r.dfc_n2 with
  | some a, some b => some (a, b)
  | _, _ => none

/-- Income-statement structure returned by calculate_dre. -/
structure DRE where
  receita_bruta : Rat
  deducoes : Rat
  receita_liquida : Rat
  custos : Rat
  lucro_bruto : Rat
  despesas_operacionais : Rat
  resultado_operacional : Rat
  outras_receitas : Rat
  outras_despesas : Rat
  resultado_liquido : Rat
  detalhamento : List (String × String × Rat)
deriving Repr, DecidableEq

/-- Bucket-accumulation step of the DRE loop: append the detail line and
route the group sum by keyword containment on the stripped labels, in the
elif order of the source. -/
def dreStep (acc : DRE) (g : String × String × Rat) : DRE :=
  let nivel1 := g.1.trim
  let nivel2 := g.2.1.trim
  let valor := g.2.2
  let acc := { acc with detalhamento := acc.detalhamento ++ [(nivel1, nivel2, valor)] }
  if containsSub nivel1 "Receita Bruta" then
    { acc with receita_bruta := acc.receita_bruta + valor }
  else if containsSub nivel1 "Receita Líquida" then
    { acc with deducoes := acc.deducoes + |valor| }
  else if containsSub nivel1 "Lucro Bruto" || containsSub nivel2 "CMV" ||
      containsSub nivel2 "Custo" then
    { acc with custos := acc.custos + |valor| }
  else if containsSub nivel1 "Despesa" || containsSub nivel2 "Despesa" then
    { acc with despesas_operacionais := acc.despesas_operacionais + |valor| }
  else acc

/-- Embedding of FinancialAnalyzer.calculate_dre: group the DRE-tagged rows,
accumulate the buckets, then overwrite gross revenue with the sum of every
positive amount of the whole frame and derive the income-statement lines
from it. -/
def calculate_dre (df : List EnrichedRow) : DRE :=
  let zero : DRE := ⟨0, 0, 0, 0, 0, 0, 0, 0, 0, 0, []⟩
  let grouped := groupSums dreKey df
  let acc := grouped.foldl dreStep zero
  let receitas := posSum (df.map (fun r => r.base.valor))
  let acc := { acc with receita_bruta := receitas }
  let acc := { acc with receita_liquida := acc.receita_bruta - acc.deducoes }
  let acc := { acc with lucro_bruto := acc.receita_liquida - acc.custos }
  let acc := { acc with resultado_operacional := acc.lucro_bruto - acc.despesas_operacionais }
  { acc with resultado_liquido :=
      acc.resultado_operacional + acc.outras_receitas - acc.outras_despesas }

/-- Cash-flow structure returned by calculate_dfc. -/
structure DFC where
  operacional : Rat
  investimento : Rat
  financiamento : Rat
  transferencias : Rat
  saldo_inicial : Rat
  saldo_final : Rat
  detalhamento : List (String × String × Rat)
deriving Repr, DecidableEq

/-- Bucket-accumulation step of the DFC loop. -/
def dfcStep (acc : DFC) (g : String × String × Rat) : DFC :=
  let nivel1 := g.1.trim
  let nivel2 := g.2.1.trim
  let valor := g.2.2
  let acc := { acc with detalhamento := acc.detalhamento ++ [(nivel1, nivel2, valor)] }
  if containsSub nivel1 "Operacional" then
    { acc with operacional := acc.operacional + valor }
  else if containsSub nivel1 "Investimento" then
    { acc with investimento := acc.investimento + valor }
  else if containsSub nivel1 "Financiamento" then
    { acc with financiamento := acc.financiamento + valor }
  else if containsSub nivel1 "Movimentação entre Contas" then
    { acc with transferencias := acc.transferencias + valor }
  else acc

/-- Embedding of FinancialAnalyzer.calculate_dfc. -/
def calculate_dfc (df : List EnrichedRow) : DFC :=
  let zero : DFC := ⟨0, 0, 0, 0, 0, 0, []⟩
  let acc := (groupSums dfcKey df).foldl dfcStep zero
  { acc with saldo_final :=
      acc.saldo_inicial + acc.operacional + acc.investimento + acc.financiamento }

/-- One entry of the per-category analysis. -/
structure CatEntry where
  categoria : String
  total : Rat
  quantidade : Nat
  media : Rat
  primeira_transacao : String
  ultima_transacao : String
deriving Repr, DecidableEq

/-- Embedding of FinancialAnalyzer.analyze_by_category: group the frame by
its category column (pandas drops the null-category group), aggregate sum,
count, mean and min/max of the date strings per group with keys ascending,
then stable-sort the entries by absolute total descending. -/
def analyze_by_category (df : List Row) : List CatEntry :=
  let cats := sortByLeb strLeb
    (dedupFirst (df.filterMap (fun t => t.classificacao_sugerida)))
  let entries := cats.map (fun c =>
    let rows := df.filter (fun t => t.classificacao_sugerida = some c)
    let vals := rows.map (fun t => t.valor)
    { categoria := c
      total := vals.sum
      quantidade := rows.length
      media := if 0 < rows.length then vals.sum / (rows.length : Rat) else 0
      primeira_transacao := minStr "" (rows.map (fun t => t.data))
      ultima_transacao := maxStr "" (rows.map (fun t => t.data)) })
  sortByLeb (fun a b => decide (|b.total| < |a.total|)) entries

/-- Full report structure returned by generate_full_report, with the
generation timestamp field filled from the wall clock at call time. -/
structure Report where
  data_geracao : String
  sumario : Summary
  dre : DRE
  dfc : DFC
  analise_categorias : List CatEntry
  tendencia_mensal : List MonthlyPoint
  comparacoes_mensais : List Comparison
  fonte_dados : String
  aviso : String
deriving Repr, DecidableEq

/-- Embedding of FinancialAnalyzer.generate_full_report: reject an empty
frame, enrich with the chart of accounts, run every sub-analysis on the same
input, and stamp the report with the formatted current time (`now` is the
string datetime.now().strftime produces at the moment of the call). -/
def generate_full_report (plano : List PlanoConta) (now : String)
    (df : List Row) : Except String Report :=
  if df.isEmpty then
    .error "ERRO: DataFrame vazio! Não é possível gerar relatório sem dados reais dos arquivos OFX."
  else
    let df_enriched := enrich_with_plan plano df
    .ok
      { data_geracao := now
        sumario := summaryCore df
        dre := calculate_dre df_enriched
        dfc := calculate_dfc df_enriched
        analise_categorias := analyze_by_category df
        tendencia_mensal := analyze_monthly_trend df
        comparacoes_mensais := get_all_month_comparisons df
        fonte_dados := "Arquivos OFX processados"
        aviso := "Todos os valores são baseados EXCLUSIVAMENTE em dados contidos nos arquivos OFXs processados." }

/-- Report with its generation timestamp erased, used to compare two
invocations of generate_full_report up to the wall-clock stamp. -/
def eraseTime (r : Report) : Report := { r with data_geracao := "" }

/-- State of one Python function call that received a pandas DataFrame
argument: the caller's object, the value the local name `df` currently
denotes, and whether that local name still aliases the caller's object.  An
in-place column assignment on an aliased frame would be visible to the
caller; after `df = df.copy()` it is not. -/
structure PdState (α : Type) where
  caller : α
  curr : α
  aliased : Bool

/-- Function entry: the parameter aliases the caller's object. -/
def pdParam (a : α) : PdState α := ⟨a, a, true⟩

/-- Effect of `df = df.copy()`: the local name is rebound to a fresh copy
and no longer aliases the caller's object. -/
def pdCopy (s : PdState α) : PdState α := ⟨s.caller, s.curr, false⟩

/-- Effect of an in-place mutation (column assignment, loc update) through
the local name: it hits the caller's object exactly when the name still
aliases it. -/
def pdMutate (f : α → α) (s : PdState α) : PdState α :=
  if s.aliased then ⟨f s.caller, f s.curr, true⟩ else ⟨s.caller, f s.curr, false⟩

/-- Effect of rebinding the local name to a newly built frame
(merge, dropna, boolean indexing): the caller's object is untouched. -/
def pdRebind (f : α → α) (s : PdState α) : PdState α := ⟨s.caller, f s.curr, false⟩

/-- Transaction row extended with the scratch columns the analysis functions
assign on their working frame (parsed date, month key, category code); a
none value stands for an absent column or NaT. -/
structure XRow where
  row : Row
  data_dt : Option DateDMY
  mes_ano : Option String
  codigo_conta : Option String
deriving Repr, DecidableEq

/-- Injection of a plain transaction row into the extended representation,
with no scratch column set. -/
def injX (t : Row) : XRow := ⟨t, none, none, none⟩

/-- Aliasing-aware run of classificar_transacoes_df: copy the frame, then
perform the column initialisation and the loc updates on the copy (the
classification columns are modelled as always-present nullable fields, so
initialising a missing column is the identity here).  Returns the pair
(classified frame, appended log entries) together with the caller's object
after the call. -/
def classificar_transacoes_df_run (classes : List String)
    (oracle : Row → AIOutcome) (df0 : List Row) :
    (List Row × List LogRecord) × List Row :=
  let s := pdCopy (pdParam df0)
  let s := pdMutate (fun d => d) s
  let resultados :=
    ((chunksOf 50 (pendingRows s.curr)).map
      (fun ch => ch.map (classificar_transacao classes oracle))).flatten
  let s := pdMutate (fun d => mergeBack d (resultados.map (fun p => p.1))) s
  ((s.curr, (resultados.map (fun p => p.2)).flatten), s.caller)

/-- Enriched row rebuilt from the codigo_conta scratch column during the
left merge of enrich_with_plan. -/
def enrichFromX (plano : List PlanoConta) (x : XRow) : EnrichedRow :=
  match x.codigo_conta.bind (fun c => plano.find? (fun p => p.conta_cod = c)) with
  | some p => ⟨x.row, x.codigo_conta, p.dre_n1, p.dre_n2, p.dfc_n1, p.dfc_n2⟩
  | none => ⟨x.row, x.codigo_conta, none, none, none, none⟩

/-- Aliasing-aware run of enrich_with_plan: copy, assign the codigo_conta
column on the copy, then rebind the local name to the merged frame. -/
def enrich_with_plan_run (plano : List PlanoConta) (df0 : List Row) :
    List EnrichedRow × List XRow :=
  let s := pdCopy (pdParam (df0.map injX))
  let s := pdMutate (List.map (fun x =>
    { x with codigo_conta := extract_code x.row.classificacao_sugerida })) s
  let s := pdRebind (fun d => d) s
  ((s.curr.map (enrichFromX plano)), s.caller)

/-- Aliasing-aware run of analyze_monthly_trend: copy, assign the parsed
date and month-key columns on the copy, rebind to the dropna result, and
compute the trend from the surviving rows. -/
def analyze_monthly_trend_run (df0 : List Row) : List MonthlyPoint × List XRow :=
  let s := pdCopy (pdParam (df0.map injX))
  let s := pdMutate (List.map (fun x =>
    { x with data_dt := parseDateDMY x.row.data })) s
  let s := pdMutate (List.map (fun x =>
    { x with mes_ano := x.data_dt.map (fun d => fmtMonth d.year d.month) })) s
  let s := pdRebind (List.filter (fun x => x.mes_ano.isSome)) s
  (analyze_monthly_trend (s.curr.map (fun x => x.row)), s.caller)

/-- Aliasing-aware run of compare_months: copy, assign the parsed date and
the month-key string columns on the copy, and compute the comparison from
the copy's rows. -/
def compare_months_run (df0 : List Row) (a b : String) :
    Option Comparison × List XRow :=
  let s := pdCopy (pdParam (df0.map injX))
  let s := pdMutate (List.map (fun x =>
    { x with data_dt := parseDateDMY x.row.data })) s
  let s := pdMutate (List.map (fun x =>
    { x with mes_ano := some (mesAnoStr x.row) })) s
  (compare_months (s.curr.map (fun x => x.row)) a b, s.caller)

/-- Splitting a sum of rationals into its positive and negative parts: the
zero entries contribute to neither filter and to nothing in the sum. -/
theorem sum_pos_neg (vs : List Rat) : vs.sum = posSum vs + negSum vs := by
  induction vs with
  | nil => simp [posSum, negSum]
  | cons v rest ih =>
    by_cases h1 : (0 : Rat) < v
    · have h2 : ¬ v < 0 := by linarith
      simp only [posSum, negSum, List.filter_cons, List.sum_cons] at *
      simp [h1, h2] at *
      linarith
    · by_cases h2 : v < 0
      · simp only [posSum, negSum, List.filter_cons, List.sum_cons] at *
        simp [h1, h2] at *
        linarith
      · have h0 : v = 0 := le_antisymm (not_lt.mp h1) (not_lt.mp h2)
        simp only [posSum, negSum, List.filter_cons, List.sum_cons] at *
        simp [h1, h2] at *
        linarith

/-- The sum of the strictly negative entries is nonpositive. -/
theorem negSum_nonpos (vs : List Rat) : negSum vs ≤ 0 := by
  induction vs with
  | nil => simp [negSum]
  | cons v rest ih =>
    by_cases h : v < 0
    · have he : negSum (v :: rest) = v + negSum rest := by
        simp [negSum, List.filter_cons, h]
      rw [he]
      linarith
    · have he : negSum (v :: rest) = negSum rest := by
        simp [negSum, List.filter_cons, h]
      rw [he]
      exact ih

/-- Total of a list of amounts equals positive part minus absolute negative
part: the identity behind saldo equals receita minus despesa. -/
theorem sum_eq_pos_sub_negAbs (vs : List Rat) : vs.sum = posSum vs - negAbs vs := by
  have h := sum_pos_neg vs
  have hn := negSum_nonpos vs
  simp only [negAbs, abs_of_nonpos hn]
  linarith

/-- Membership in the accumulator-based deduplication. -/
theorem mem_dedupAux [DecidableEq α] (x : α) :
    ∀ (l seen : List α), x ∈ dedupAux seen l ↔ x ∈ l ∧ x ∉ seen := by
  intro l
  induction l with
  | nil => intro seen; simp [dedupAux]
  | cons a as ih =>
    intro seen
    by_cases ha : a ∈ seen
    · simp only [dedupAux, if_pos ha, ih, List.mem_cons]
      constructor
      · rintro ⟨hx, hs⟩
        exact ⟨Or.inr hx, hs⟩
      · rintro ⟨rfl | hx, hs⟩
        · exact absurd ha hs
        · exact ⟨hx, hs⟩
    · simp only [dedupAux, if_neg ha, List.mem_cons, ih, not_or]
      constructor
      · rintro (rfl | ⟨hx, hne, hs⟩)
        · exact ⟨Or.inl rfl, ha⟩
        · exact ⟨Or.inr hx, hs⟩
      · rintro ⟨rfl | hx, hs⟩
        · exact Or.inl rfl
        · by_cases hxa : x = a
          · exact Or.inl hxa
          · exact Or.inr ⟨hx, hxa, hs⟩

/-- Membership in first-occurrence deduplication. -/
theorem mem_dedupFirst [DecidableEq α] (x : α) (l : List α) :
    x ∈ dedupFirst l ↔ x ∈ l := by
  simp [dedupFirst, mem_dedupAux]

/-- No-duplicates property of the accumulator-based deduplication. -/
theorem nodup_dedupAux [DecidableEq α] :
    ∀ (l seen : List α), (dedupAux seen l).Nodup := by
  intro l
  induction l with
  | nil => intro seen; simp [dedupAux]
  | cons a as ih =>
    intro seen
    by_cases ha : a ∈ seen
    · simpa [dedupAux, if_pos ha] using ih seen
    · simp only [dedupAux, if_neg ha, List.nodup_cons]
      refine ⟨fun hc => ?_, ih (a :: seen)⟩
      exact ((mem_dedupAux a as (a :: seen)).mp hc).2 (List.mem_cons_self a seen)

/-- No-duplicates property of first-occurrence deduplication. -/
theorem nodup_dedupFirst [DecidableEq α] (l : List α) : (dedupFirst l).Nodup :=
  nodup_dedupAux l []

/-- Membership in sorted insertion. -/
theorem mem_insertSorted (leb : α → α → Bool) (a x : α) :
    ∀ l : List α, x ∈ insertSorted leb a l ↔ x = a ∨ x ∈ l := by
  intro l
  induction l with
  | nil => simp [insertSorted]
  | cons b bs ih =>
    by_cases h : leb a b
    · simp [insertSorted, h, List.mem_cons]
    · simp only [insertSorted, if_neg h, List.mem_cons, ih]
      tauto

/-- Membership in insertion sort. -/
theorem mem_sortByLeb (leb : α → α → Bool) (x : α) :
    ∀ l : List α, x ∈ sortByLeb leb l ↔ x ∈ l := by
  intro l
  induction l with
  | nil => simp [sortByLeb]
  | cons a as ih => simp [sortByLeb, mem_insertSorted, ih, List.mem_cons]

/-- Sorted insertion preserves no-duplicates when the element is fresh. -/
theorem nodup_insertSorted (leb : α → α → Bool) (a : α) :
    ∀ l : List α, l.Nodup → a ∉ l → (insertSorted leb a l).Nodup := by
  intro l
  induction l with
  | nil => intro _ _; simp [insertSorted]
  | cons b bs ih =>
    intro hnd hna
    rcases List.nodup_cons.mp hnd with ⟨hb, hbs⟩
    have hab : a ≠ b := fun hq => hna (hq ▸ List.mem_cons_self b bs)
    by_cases h : leb a b
    · have he : insertSorted leb a (b :: bs) = a :: b :: bs := by
        simp [insertSorted, h]
      rw [he]
      exact List.nodup_cons.mpr ⟨hna, hnd⟩
    · have he : insertSorted leb a (b :: bs) = b :: insertSorted leb a bs := by
        simp [insertSorted, h]
      rw [he]
      refine List.nodup_cons.mpr
        ⟨?_, ih hbs (fun hc => hna (List.mem_cons_of_mem _ hc))⟩
      intro hc
      rcases (mem_insertSorted leb a b bs).mp hc with h1 | h1
      · exact hab h1.symm
      · exact hb h1

/-- Insertion sort preserves no-duplicates. -/
theorem nodup_sortByLeb (leb : α → α → Bool) :
    ∀ l : List α, l.Nodup → (sortByLeb leb l).Nodup := by
  intro l
  induction l with
  | nil => intro _; simp [sortByLeb]
  | cons a as ih =>
    intro hnd
    rcases List.nodup_cons.mp hnd with ⟨ha, has⟩
    exact nodup_insertSorted leb a _ (ih has)
      (fun hc => ha ((mem_sortByLeb leb a as).mp hc))

/-- Sorted insertion preserves sortedness for a transitive total boolean
comparison. -/
theorem pairwise_insertSorted (leb : α → α → Bool)
    (htrans : ∀ a b c, leb a b = true → leb b c = true → leb a c = true)
    (htot : ∀ a b, leb a b = true ∨ leb b a = true) (a : α) :
    ∀ l : List α, List.Pairwise (fun x y => leb x y = true) l →
      List.Pairwise (fun x y => leb x y = true) (insertSorted leb a l) := by
  intro l
  induction l with
  | nil => intro _; simp [insertSorted]
  | cons b bs ih =>
    intro hp
    rcases List.pairwise_cons.mp hp with ⟨hb, hbs⟩
    by_cases h : leb a b
    · have he : insertSorted leb a (b :: bs) = a :: b :: bs := by
        simp [insertSorted, h]
      rw [he]
      refine List.pairwise_cons.mpr ⟨?_, hp⟩
      intro x hx
      rcases List.mem_cons.mp hx with rfl | hx
      · exact h
      · exact htrans a b x h (hb x hx)
    · have he : insertSorted leb a (b :: bs) = b :: insertSorted leb a bs := by
        simp [insertSorted, h]
      rw [he]
      refine List.pairwise_cons.mpr ⟨?_, ih hbs⟩
      intro x hx
      rcases (mem_insertSorted leb a x bs).mp hx with rfl | hx
      · rcases htot x b with hip | hip
        · exact absurd hip h
        · exact hip
      · exact hb x hx

/-- Insertion sort sorts, for a transitive total boolean comparison. -/
theorem pairwise_sortByLeb (leb : α → α → Bool)
    (htrans : ∀ a b c, leb a b = true → leb b c = true → leb a c = true)
    (htot : ∀ a b, leb a b = true ∨ leb b a = true) :
    ∀ l : List α, List.Pairwise (fun x y => leb x y = true) (sortByLeb leb l) := by
  intro l
  induction l with
  | nil => simp [sortByLeb]
  | cons a as ih => exact pairwise_insertSorted leb htrans htot a _ ih

/-- Mapping over the chunks of a list and flattening gives the plain map:
the fixed-size chunking changes neither the results nor their order. -/
theorem chunksOfAux_flatten_map (f : α → β) (n : Nat) (hn : 0 < n) :
    ∀ (fuel : Nat) (l : List α), l.length ≤ fuel →
      ((chunksOfAux n fuel l).map (List.map f)).flatten = l.map f := by
  intro fuel
  induction fuel with
  | zero =>
    intro l hl
    have : l = [] := List.eq_nil_of_length_eq_zero (Nat.le_zero.mp hl)
    subst this
    simp [chunksOfAux]
  | succ fuel ih =>
    intro l hl
    cases l with
    | nil => simp [chunksOfAux]
    | cons x xs =>
      have hdrop : ((x :: xs).drop n).length ≤ fuel := by
        simp only [List.length_cons] at hl
        simp only [List.length_drop, List.length_cons]
        omega
      calc ((chunksOfAux n (fuel + 1) (x :: xs)).map (List.map f)).flatten
          = ((x :: xs).take n).map f ++
              ((chunksOfAux n fuel ((x :: xs).drop n)).map (List.map f)).flatten := by
            simp [chunksOfAux]
        _ = ((x :: xs).take n).map f ++ ((x :: xs).drop n).map f := by
            rw [ih _ hdrop]
        _ = (x :: xs).map f := by
            rw [← List.map_append, List.take_append_drop]

/-- Chunked dispatch of the pending rows is the plain map over them. -/
theorem chunksOf_flatten_map (f : α → β) (l : List α) :
    ((chunksOf 50 l).map (List.map f)).flatten = l.map f :=
  chunksOfAux_flatten_map f 50 (by omega) l.length l le_rfl

/-- Writing the per-pending-row results back preserves the number of rows
and leaves every row with a non-null category: already-classified rows are
kept, and every pending row consumes exactly one result. -/
theorem mergeBack_spec (g : Row → ClassResult) :
    ∀ df : List Row,
      (mergeBack df ((pendingRows df).map g)).length = df.length ∧
      ∀ r ∈ mergeBack df ((pendingRows df).map g),
        r.classificacao_sugerida.isSome := by
  intro df
  induction df with
  | nil => simp [mergeBack, pendingRows]
  | cons r rs ih =>
    cases hc : r.classificacao_sugerida with
    | some v =>
      have hpend : pendingRows (r :: rs) = pendingRows rs := by
        simp [pendingRows, List.filter_cons, hc]
      have hmb : mergeBack (r :: rs) ((pendingRows rs).map g) =
          r :: mergeBack rs ((pendingRows rs).map g) := by
        simp [mergeBack, hc]
      rw [hpend, hmb]
      refine ⟨by simp [ih.1], ?_⟩
      intro t ht
      rcases List.mem_cons.mp ht with rfl | ht
      · simp [hc]
      · exact ih.2 t ht
    | none =>
      have hpend : pendingRows (r :: rs) = r :: pendingRows rs := by
        simp [pendingRows, List.filter_cons, hc]
      have hmb : mergeBack (r :: rs) (g r :: (pendingRows rs).map g) =
          { r with classificacao_sugerida := some (g r).classificacao_sugerida,
                   explicacao := some (g r).explicacao } ::
            mergeBack rs ((pendingRows rs).map g) := by
        simp [mergeBack, hc]
      rw [hpend, List.map_cons, hmb]
      refine ⟨by simp [ih.1], ?_⟩
      intro t ht
      rcases List.mem_cons.mp ht with rfl | ht
      · simp
      · exact ih.2 t ht

/-- Category-and-explanation component of the rule table, as a function of
the upper-cased description and the direction flag only (the log entries,
which also carry the row's identifier, are split off). -/
def regrasCat (desc origem : String) : Option ClassResult :=
  if condTransf desc then
    if origem = "CAR" then
      some ⟨"(+) Transferencia Entre Contas",
        "Transferência entre contas próprias identificada (entrada)"⟩
    else
      some ⟨"(-) Transferencia Entre Contas",
        "Transferência entre contas próprias identificada (saída)"⟩
  else if condRende desc then
    if origem = "CAR" then
      some ⟨"Resgate Aplicação Financeira", "Resgate de aplicação financeira identificado"⟩
    else
      some ⟨"0.006 - Aplicação Financeira", "Aplicação financeira identificada"⟩
  else if condPixTed desc then
    if origem = "CAP" then
      some ⟨"Saída de Transferência", "Transferência genérica identificada (saída)"⟩
    else
      some ⟨"Entrada de Transferência", "Transferência genérica identificada (entrada)"⟩
  else if condCartao desc then
    some ⟨"Receita com Venda de Serviços", "Recebimento via cartão/maquininha"⟩
  else if condGympass desc then
    some ⟨"Gympass", "Receita Gympass identificada"⟩
  else if condSeguro desc then
    some ⟨"Seguros", "Seguro identificado na descrição"⟩
  else if condConsorcio desc then
    some ⟨"Consórcios", "Consórcio identificado na descrição"⟩
  else if condInvest desc then
    some ⟨"Investimento", "Investimento identificado na descrição"⟩
  else none

/-- The decision component of regras_pre_classificacao factors through the
upper-cased description and the direction flag. -/
theorem regras_fst (row : Row) (b : Bool) :
    (regras_pre_classificacao row b).1 = regrasCat (pyUpper row.descricao) row.origem := by
  simp only [regras_pre_classificacao, regrasCat]
  repeat' split
  all_goals rfl

/-- The decision of the rule table is null exactly when none of the eight
predicates matches the upper-cased description. -/
theorem regrasCat_none_iff (desc origem : String) :
    regrasCat desc origem = none ↔ anyRuleMatches desc = false := by
  simp only [regrasCat, anyRuleMatches]
  by_cases h1 : condTransf desc
  · simp [h1]
    split <;> simp
  · by_cases h2 : condRende desc
    · simp [h1, h2]
      split <;> simp
    · by_cases h3 : condPixTed desc
      · simp [h1, h2, h3]
        split <;> simp
      · by_cases h4 : condCartao desc
        · simp [h1, h2, h3, h4]
        · by_cases h5 : condGympass desc
          · simp [h1, h2, h3, h4, h5]
          · by_cases h6 : condSeguro desc
            · simp [h1, h2, h3, h4, h5, h6]
            · by_cases h7 : condConsorcio desc
              · simp [h1, h2, h3, h4, h5, h6, h7]
              · by_cases h8 : condInvest desc
                · simp [h1, h2, h3, h4, h5, h6, h7, h8]
                · simp [h1, h2, h3, h4, h5, h6, h7, h8]

/-- Number of log entries appended by one call of the rule table with
logging enabled: one for the two special rule families, zero otherwise
(generic rules and the no-match path do not log). -/
theorem regras_log_len (row : Row) :
    (regras_pre_classificacao row true).2.length =
      if specialRule (pyUpper row.descricao) then 1 else 0 := by
  simp only [regras_pre_classificacao, specialRule]
  repeat' split
  all_goals simp_all

/-- Number of log entries appended by classifying one transaction: the rule
table's entries when a rule decides, otherwise exactly one entry from the AI
or error path. -/
theorem classificar_log_len (classes : List String) (oracle : Row → AIOutcome)
    (row : Row) :
    (classificar_transacao classes oracle row).2.length =
      if (regras_pre_classificacao row true).1.isSome then
        (regras_pre_classificacao row true).2.length
      else 1 := by
  rcases hreg : regras_pre_classificacao row true with ⟨o, lg⟩
  cases o with
  | none =>
    simp only [classificar_transacao, hreg]
    cases hv : validateStructured classes (oracle row) <;> simp [hv]
  | some r => simp [classificar_transacao, hreg]

/-- Does the first matching rule of a row belong to the non-logging generic
families?  True exactly when some rule predicate matches but neither of the
two logging families does. -/
def genericDecides (row : Row) : Bool :=
  !specialRule (pyUpper row.descricao) && anyRuleMatches (pyUpper row.descricao)

/-- A logging-family match is in particular a rule match. -/
theorem special_imp_any (desc : String) :
    specialRule desc = true → anyRuleMatches desc = true := by
  simp only [specialRule, anyRuleMatches, Bool.or_eq_true]
  tauto

/-- Per-transaction decision-log count of classificar_transacao: zero when a
generic (non-logging) rule decides first, one in every other case. -/
theorem classificar_log_count (classes : List String) (oracle : Row → AIOutcome)
    (row : Row) :
    (classificar_transacao classes oracle row).2.length =
      if genericDecides row then 0 else 1 := by
  rw [classificar_log_len]
  by_cases hs : specialRule (pyUpper row.descricao)
  · have ha := special_imp_any _ hs
    have hne : (regras_pre_classificacao row true).1.isSome = true := by
      rw [regras_fst]
      rcases ho : regrasCat (pyUpper row.descricao) row.origem with _ | r
      · rw [regrasCat_none_iff] at ho
        rw [ho] at ha
        cases ha
      · rfl
    simp [hne, regras_log_len, hs, genericDecides]
  · by_cases ha : anyRuleMatches (pyUpper row.descricao)
    · have hne : (regras_pre_classificacao row true).1.isSome = true := by
        rw [regras_fst]
        rcases ho : regrasCat (pyUpper row.descricao) row.origem with _ | r
        · rw [regrasCat_none_iff] at ho
          rw [ha] at ho
          cases ho
        · rfl
      simp [hne, regras_log_len, hs, genericDecides, ha]
    · have hn : (regras_pre_classificacao row true).1 = none := by
        rw [regras_fst, regrasCat_none_iff]
        simpa using ha
      simp [hn, genericDecides, hs, ha]

/-- Total decision-log entries of mapping the classifier over a list of
rows: one entry per row not decided by a generic rule. -/
theorem logs_count (classes : List String) (oracle : Row → AIOutcome) :
    ∀ l : List Row,
      ((l.map (fun r => (classificar_transacao classes oracle r).2)).flatten).length
        = l.countP (fun r => !genericDecides r) := by
  intro l
  induction l with
  | nil => simp
  | cons r rs ih =>
    simp only [List.map_cons, List.flatten_cons, List.length_append, ih,
      List.countP_cons]
    rw [classificar_log_count]
    by_cases h : genericDecides r
    · simp [h]
    · simp [h]
      omega

/-- Claim C1, amended.  Per transaction, the classification call appends at
most one decision record: exactly one when the outcome comes from the two
logging rule families, from the AI or from an error, and zero when one of
the generic rules (PIX/TED, card, Gympass, insurance, consortium,
investment) decides first.  Consequently, after classifying a batch the log
holds one record per dispatched transaction not resolved by a generic rule,
not one per transaction. -/
theorem c1_decision_log_per_transaction (classes : List String)
    (oracle : Row → AIOutcome) (row : Row) (df : List Row) :
    (classificar_transacao classes oracle row).2.length
        = (if genericDecides row then 0 else 1)
    ∧ (classificar_transacoes_df classes oracle df).2.length
        = (pendingRows df).countP (fun r => !genericDecides r) := by
  refine ⟨classificar_log_count classes oracle row, ?_⟩
  simp only [classificar_transacoes_df]
  rw [chunksOf_flatten_map (classificar_transacao classes oracle) (pendingRows df)]
  rw [List.map_map]
  exact logs_count classes oracle (pendingRows df)

/-- Claim C1, counterexample.  A transaction whose description matches the
generic PIX rule is classified with zero decision-log records appended, not
exactly one: the log can end up with fewer records than transactions. -/
theorem c1_counterexample :
    (classificar_transacao [] (fun _ => AIOutcome.err "network error")
      ⟨0, "01/01/2025", "PIX", "CAP", -10, none, none⟩).2.length = 0
    ∧ ¬ (classificar_transacao [] (fun _ => AIOutcome.err "network error")
      ⟨0, "01/01/2025", "PIX", "CAP", -10, none, none⟩).2.length = 1 := by
  constructor <;> decide

/-- Claim C2.  In every state reachable by the chunked dispatcher, the
number of simultaneously outstanding external calls never exceeds the
configured concurrency limit, independently of the batch size and of the
fixed 50-item chunking. -/
theorem c2_concurrency_bound (limit : Nat) (batch : List Row)
    (s : DispatchState)
    (h : DispatchReach (initDispatch limit batch) s) : s.holdingT ≤ limit := by
  have hinv := dispatch_invariant limit batch s h
  omega

/-- Concrete batch of 120 transactions used to exercise the dispatcher. -/
def batch120 : List Row := List.replicate 120 ⟨0, "", "", "", 0, none, none⟩

/-- Claim C2, witness: with the default limit 6 and a 120-item batch (chunks
of sizes 50, 50 and 20), the state reached after starting the first chunk
and launching two calls satisfies the bound. -/
theorem c2_concurrency_bound_witness :
    (⟨6, 48, 2, 4, [50, 20]⟩ : DispatchState).holdingT ≤ 6 := by
  have hr0 : (initDispatch 6 batch120).restChunks = 50 :: [50, 20] := by decide
  have h1 : DispatchReach (initDispatch 6 batch120) ⟨6, 50, 0, 6, [50, 20]⟩ :=
    DispatchReach.tail DispatchReach.refl
      (DispatchStep.nextChunk (initDispatch 6 batch120) 50 [50, 20] rfl rfl hr0)
  have h2 : DispatchReach (initDispatch 6 batch120) ⟨6, 49, 1, 5, [50, 20]⟩ :=
    DispatchReach.tail h1
      (DispatchStep.acquire ⟨6, 50, 0, 6, [50, 20]⟩ (by decide) (by decide))
  have h3 : DispatchReach (initDispatch 6 batch120) ⟨6, 48, 2, 4, [50, 20]⟩ :=
    DispatchReach.tail h2
      (DispatchStep.acquire ⟨6, 49, 1, 5, [50, 20]⟩ (by decide) (by decide))
  exact c2_concurrency_bound 6 batch120 _ h3

/-- Claim C3.  A failing external call (transport error, or a response whose
category falls outside the closed allowed set and is rejected by the
structured-output validation) gives the sentinel category with the failure
reason in the explanation and one error decision logged, and the batch
classifier still produces a complete, fully classified frame. -/
theorem c3_failure_isolation :
    (∀ (classes : List String) (oracle : Row → AIOutcome) (row : Row) (e : String),
      (regras_pre_classificacao row true).1 = none →
      oracle row = AIOutcome.err e →
      classificar_transacao classes oracle row =
        (⟨"Nao classificado", "Erro na classificação: " ++ e⟩,
         [⟨row.index, row.descricao, "Nao classificado",
           "Erro na classificação: " ++ e, "error",
           "Erro ao classificar: " ++ e, some 0⟩]))
    ∧ (∀ (classes : List String) (oracle : Row → AIOutcome) (row : Row)
        (c ex : String),
      (regras_pre_classificacao row true).1 = none →
      oracle row = AIOutcome.ok c ex →
      c ∉ classes →
      (classificar_transacao classes oracle row).1.classificacao_sugerida
          = "Nao classificado"
      ∧ (classificar_transacao classes oracle row).2.map (fun l => l.method)
          = ["error"])
    ∧ (∀ (classes : List String) (oracle : Row → AIOutcome) (df : List Row),
      (classificar_transacoes_df classes oracle df).1.length = df.length
      ∧ ∀ r ∈ (classificar_transacoes_df classes oracle df).1,
          r.classificacao_sugerida.isSome) := by
  refine ⟨?_, ?_, ?_⟩
  · intro classes oracle row e h horacle
    rcases hreg : regras_pre_classificacao row true with ⟨o, lg⟩
    rw [hreg] at h
    simp only at h
    subst h
    simp [classificar_transacao, hreg, horacle, validateStructured]
  · intro classes oracle row c ex h horacle hc
    rcases hreg : regras_pre_classificacao row true with ⟨o, lg⟩
    rw [hreg] at h
    simp only at h
    subst h
    constructor <;> simp [classificar_transacao, hreg, horacle, validateStructured, hc]
  · intro classes oracle df
    have h := mergeBack_spec (fun r => (classificar_transacao classes oracle r).1) df
    simp only [classificar_transacoes_df]
    rw [chunksOf_flatten_map, List.map_map]
    exact h

/-- Row whose description matches none of the rule predicates, forcing the
AI path. -/
def rowNoRule : Row := ⟨7, "02/01/2025", "ALUGUEL JANEIRO", "CAP", -100, none, none⟩

/-- Oracle that always fails with a transport error. -/
def oracleErr : Row → AIOutcome := fun _ => AIOutcome.err "timeout"

/-- Oracle returning a category outside the closed allowed set. -/
def oracleBad : Row → AIOutcome :=
  fun _ => AIOutcome.ok "Categoria Inexistente" "explicacao qualquer"

/-- Two-row batch: a rule-resolved row followed by one that needs the AI. -/
def dfBatch : List Row :=
  [⟨0, "01/01/2025", "PIX RECEBIDO", "CAR", 100, none, none⟩, rowNoRule]

/-- Claim C3, witness at concrete inputs: the failing transaction carries
the failure reason, the out-of-set response is downgraded to the sentinel,
and the whole two-row batch still comes back classified. -/
theorem c3_failure_isolation_witness :
    (classificar_transacao ["Outros"] oracleErr rowNoRule).1.explicacao
        = "Erro na classificação: timeout"
    ∧ (classificar_transacao ["Outros"] oracleBad rowNoRule).1.classificacao_sugerida
        = "Nao classificado"
    ∧ (classificar_transacoes_df ["Outros"] oracleErr dfBatch).1.length = 2 := by
  have ha := c3_failure_isolation.1 ["Outros"] oracleErr rowNoRule "timeout"
    (by decide) rfl
  have hb := (c3_failure_isolation.2.1 ["Outros"] oracleBad rowNoRule
    "Categoria Inexistente" "explicacao qualquer" (by decide) rfl (by decide)).1
  have hc := (c3_failure_isolation.2.2 ["Outros"] oracleErr dfBatch).1
  refine ⟨by rw [ha]; decide, hb, by rw [hc]; decide⟩

/-- Claim C4.  The decision of the rule table is a deterministic function of
the upper-cased description and the direction flag alone; when several
predicates match, the earlier rule of the fixed order decides (a description
holding both RENDE FACIL and PIX is classified by the Rende Fácil rule, not
the PIX rule); and it returns none exactly when no predicate matches. -/
theorem c4_rule_engine :
    (∀ (r1 r2 : Row) (b1 b2 : Bool),
      pyUpper r1.descricao = pyUpper r2.descricao → r1.origem = r2.origem →
      (regras_pre_classificacao r1 b1).1 = (regras_pre_classificacao r2 b2).1)
    ∧ (regras_pre_classificacao ⟨0, "", "RENDE FACIL PIX", "CAR", 0, none, none⟩ true).1
        = some ⟨"Resgate Aplicação Financeira",
                "Resgate de aplicação financeira identificado"⟩
    ∧ (∀ (row : Row) (b : Bool),
      (regras_pre_classificacao row b).1 = none ↔
        anyRuleMatches (pyUpper row.descricao) = false) := by
  refine ⟨?_, ?_, ?_⟩
  · intro r1 r2 b1 b2 hd ho
    rw [regras_fst, regras_fst, hd, ho]
  · decide
  · intro row b
    rw [regras_fst, regrasCat_none_iff]

/-- Claim C4, witness: lower-case and upper-case spellings of the same
description classify identically, independent of the logging flag. -/
theorem c4_rule_engine_witness :
    (regras_pre_classificacao ⟨0, "", "pix enviado", "CAP", 0, none, none⟩ true).1
      = (regras_pre_classificacao ⟨1, "", "PIX ENVIADO", "CAP", 5, none, none⟩ false).1 :=
  c4_rule_engine.1 _ _ true false (by decide) rfl

/-- Transitivity of the chronological month-key comparison. -/
theorem monthLeb_trans (a b c : Nat × Nat) (hab : monthLeb a b = true)
    (hbc : monthLeb b c = true) : monthLeb a c = true := by
  simp only [monthLeb, Bool.or_eq_true, Bool.and_eq_true, decide_eq_true_eq] at *
  omega

/-- Totality of the chronological month-key comparison. -/
theorem monthLeb_total (a b : Nat × Nat) :
    monthLeb a b = true ∨ monthLeb b a = true := by
  simp only [monthLeb, Bool.or_eq_true, Bool.and_eq_true, decide_eq_true_eq]
  omega

/-- Claim C5.  The monthly trend has exactly one point per distinct calendar
month occurring among the parseable dates and no other month, in ascending
chronological order, and each point carries revenue equal to the month's
positive sum, expense equal to the absolute negative sum, and balance equal
to revenue minus expense. -/
theorem c5_monthly_trend (df : List Row) :
    (∀ k, k ∈ monthKeysOf df ↔ ∃ t ∈ df, rowMonth t = some k)
    ∧ List.Pairwise (fun p q => monthLeb p q = true) (monthKeysOf df)
    ∧ (monthKeysOf df).Nodup
    ∧ analyze_monthly_trend df = (monthKeysOf df).map (fun k =>
        ⟨fmtMonth k.1 k.2, posSum (monthValores df k), negAbs (monthValores df k),
         posSum (monthValores df k) - negAbs (monthValores df k)⟩) := by
  refine ⟨?_, ?_, ?_, ?_⟩
  · intro k
    rw [monthKeysOf, mem_sortByLeb, mem_dedupFirst, List.mem_filterMap]
  · exact pairwise_sortByLeb monthLeb monthLeb_trans monthLeb_total _
  · exact nodup_sortByLeb monthLeb _ (nodup_dedupFirst _)
  · simp only [analyze_monthly_trend]
    apply List.map_congr_left
    intro k _
    dsimp only
    rw [sum_eq_pos_sub_negAbs]

/-- Adjacent-pair characterisation of the month-comparison loop. -/
theorem getAllAux_eq (df : List Row) :
    ∀ ms : List String, getAllAux df ms =
      (adjPairs ms).filterMap (fun p => compare_months df p.1 p.2) := by
  intro ms
  induction ms with
  | nil => rfl
  | cons a tail ih =>
    cases tail with
    | nil => rfl
    | cons b rest =>
      simp only [getAllAux, adjPairs, List.filterMap_cons]
      cases hc : compare_months df a b with
      | none => simpa [hc] using ih
      | some c => simpa [hc] using ih

/-- Claim C6.  compare_months returns the explicit no-result value exactly
when at least one of the two requested months has no transaction in the
data, and get_all_month_comparisons is the adjacent-pair sweep that keeps
only the comparisons that are not the no-result value. -/
theorem c6_comparison_guard (df : List Row) (a b : String) :
    (compare_months df a b = none ↔ monthRows df a = [] ∨ monthRows df b = [])
    ∧ get_all_month_comparisons df =
        (adjPairs (mesesOf df)).filterMap (fun p => compare_months df p.1 p.2) := by
  constructor
  · by_cases h : (monthRows df a).length = 0 ∨ (monthRows df b).length = 0
    · have he : compare_months df a b = none := by
        simp only [compare_months]
        rw [if_pos h]
      rw [he]
      constructor
      · intro _
        rcases h with h | h
        · exact Or.inl (List.length_eq_zero.mp h)
        · exact Or.inr (List.length_eq_zero.mp h)
      · intro _
        rfl
    · have he : ∃ c, compare_months df a b = some c := by
        simp only [compare_months]
        rw [if_neg h]
        exact ⟨_, rfl⟩
      obtain ⟨c, hc⟩ := he
      rw [hc]
      constructor
      · intro hcon
        cases hcon
      · intro hor
        exfalso
        apply h
        rcases hor with h1 | h1
        · exact Or.inl (by simp [h1])
        · exact Or.inr (by simp [h1])
  · exact getAllAux_eq df (mesesOf df)

/-- Claim C7.  Gross revenue of the income statement is the positive sum of
the whole enriched set, not only of the DRE-tagged rows, and the three
income-statement identities hold exactly on the returned structure. -/
theorem c7_dre_identities (df : List EnrichedRow) :
    (calculate_dre df).receita_bruta = posSum (df.map (fun r => r.base.valor))
    ∧ (calculate_dre df).receita_liquida
        = (calculate_dre df).receita_bruta - (calculate_dre df).deducoes
    ∧ (calculate_dre df).lucro_bruto
        = (calculate_dre df).receita_liquida - (calculate_dre df).custos
    ∧ (calculate_dre df).resultado_operacional
        = (calculate_dre df).lucro_bruto - (calculate_dre df).despesas_operacionais :=
  ⟨rfl, rfl, rfl, rfl⟩

/-- Claim C8, amended.  Two invocations of the full report on the same
classified set agree on every analytical field: the sub-analyses are pure
functions of the input, and only the data_geracao wall-clock stamp differs
between calls, so the output is byte-identical exactly when the two calls
format the same timestamp. -/
theorem c8_report_determinism (plano : List PlanoConta) (now1 now2 : String)
    (df : List Row) :
    (generate_full_report plano now1 df).map eraseTime
      = (generate_full_report plano now2 df).map eraseTime := by
  by_cases h : df.isEmpty <;> simp [generate_full_report, h, eraseTime, Except.map]

/-- Concrete one-row classified frame for the report counterexample. -/
def dfRep : List Row := [⟨0, "05/01/2025", "VENDA", "CAR", 10, some "Gympass", some "x"⟩]

/-- Claim C8, counterexample.  The report embeds the generation timestamp,
so two invocations one second apart on the identical classified set return
different structures: the output is not byte-identical. -/
theorem c8_counterexample :
    generate_full_report [] "10/10/2025 10:00:00" dfRep
      ≠ generate_full_report [] "10/10/2025 10:00:01" dfRep := by
  intro h
  have h2 := congrArg (fun x => match x with
    | Except.ok r => r.data_geracao
    | Except.error _ => "") h
  simp only [generate_full_report] at h2
  revert h2
  decide

/-- Claim C9.  Every percentage computation is division-guarded: inside a
produced comparison the revenue and expense percentage deltas are zero
whenever the base month's value is not strictly positive, the balance
percentage delta is zero whenever the base balance is zero, and the summary
margin is zero whenever total revenue is not strictly positive. -/
theorem c9_division_guards :
    (∀ (df : List Row) (a b : String) (c : Comparison),
      compare_months df a b = some c →
        ((receitaOfMonth df a ≤ 0 → c.variations.receita_pct = 0)
        ∧ (despesaOfMonth df a ≤ 0 → c.variations.despesa_pct = 0)
        ∧ (receitaOfMonth df a - despesaOfMonth df a = 0 →
            c.variations.saldo_pct = 0)))
    ∧ (∀ df : List Row, receitaTotal df ≤ 0 →
        (summaryCore df).totais.margem = 0) := by
  constructor
  · intro df a b c hc
    simp only [compare_months] at hc
    by_cases h : (monthRows df a).length = 0 ∨ (monthRows df b).length = 0
    · rw [if_pos h] at hc
      cases hc
    · rw [if_neg h] at hc
      injection hc with hc2
      subst hc2
      refine ⟨fun hle => ?_, fun hle => ?_, fun hle => ?_⟩
      · simp [not_lt.mpr hle]
      · simp [not_lt.mpr hle]
      · simp [hle]
  · intro df hle
    simp [summaryCore, not_lt.mpr hle]

/-- Two-month frame whose first month has only an expense, so the base
revenue of the comparison is zero. -/
def dfW : List Row :=
  [⟨0, "05/01/2025", "A", "CAP", -5, none, none⟩,
   ⟨1, "03/02/2025", "B", "CAR", 4, none, none⟩]

/-- One-row frame with a single expense: total revenue is zero. -/
def dfN : List Row := [⟨0, "05/01/2025", "X", "CAP", -5, none, none⟩]

/-- Claim C9, witness: on a base month with zero revenue the revenue delta
of the produced comparison is zero, and on a revenue-free frame the summary
margin is zero. -/
theorem c9_division_guards_witness :
    ((compare_months dfW "2025-01" "2025-02").map
        (fun c => c.variations.receita_pct) = some 0)
    ∧ (summaryCore dfN).totais.margem = 0 := by
  constructor
  · cases hc : compare_months dfW "2025-01" "2025-02" with
    | none => exact absurd hc (by decide)
    | some c =>
      have hz := (c9_division_guards.1 dfW "2025-01" "2025-02" c hc).1 (by decide)
      simp [hz]
  · exact c9_division_guards.2 dfN (by decide)

/-- Claim C10.  None of the four frame-consuming operations mutates its
input: each copies the frame on entry, so the caller's object is unchanged
after the call and the classified or enriched rows exist only in the
returned value. -/
theorem c10_no_input_mutation (classes : List String) (oracle : Row → AIOutcome)
    (plano : List PlanoConta) (df0 : List Row) (a b : String) :
    (classificar_transacoes_df_run classes oracle df0).2 = df0
    ∧ (enrich_with_plan_run plano df0).2 = df0.map injX
    ∧ (analyze_monthly_trend_run df0).2 = df0.map injX
    ∧ (compare_months_run df0 a b).2 = df0.map injX :=
  ⟨rfl, rfl, rfl, rfl⟩
